import Mathlib

/-!
Verification of the HIP event subsystem (src/rocclr/hip_event.cpp) against its
natural-language specification.

The C++ code is shallowly embedded:
* `hip.Event` mirrors the fields of the C++ class `hip::Event` that the code in
  hip_event.cpp reads and writes: the creation `flags` bitmask, the nullable
  pointer `event_` to an `amd::Event` completion handle, and the `recorded_`
  boolean.  Object identity (the C++ pointer value, used by the
  test for self-comparison in elapsedTime) is modelled by an `id` field:
  distinct live objects have distinct ids.
* The `amd::Event` / `amd::Command` collaborator is external to this file of the
  repository (its class lives in the ROCclr runtime); following the
  specification it is modelled as `AmdEvent`: a status bit, the status
  observable after a non-blocking notifyCmdQueue nudge, the boolean result of
  notifyCmdQueue, nanosecond start and end profiling timestamps, and the id of
  the owning queue.  Handles are named by `Nat` ids; a store `hs : Nat → AmdEvent`
  gives the state of every handle, and C++ pointer equality of handles is id
  equality.  Timestamp machine width is not specified, so timestamps are exact
  integers and the int64 cast in the C++ source is the identity.
* Floating point: the C++ code divides an integer nanosecond difference by
  1000000.f into a float; the specification states the exact quotient, so the
  result is modelled as an exact rational.
* Blocking waits and enqueued commands are made observable as explicit effect
  values returned next to the error code, so that statements such as
  "never blocks" or "enqueues a marker carrying exactly this wait-list" are
  statable.
-/

namespace hip

/-- Error codes returned by the event subsystem, from the hipError_t values the
code in hip_event.cpp mentions. -/
inductive hipError_t where
  | hipSuccess
  | hipErrorInvalidHandle
  | hipErrorNotReady
  | hipErrorInvalidValue
  | hipErrorOutOfMemory
  | hipErrorLaunchOutOfResources
  deriving DecidableEq, Repr

export hipError_t (hipSuccess hipErrorInvalidHandle hipErrorNotReady
  hipErrorInvalidValue hipErrorOutOfMemory hipErrorLaunchOutOfResources)

/-- Event creation flag: default. Modelled from the spec: the flag values come
from the public HIP header, which is not part of this repository; the spec only
requires five recognized bits with the two release flags distinct, and these
are the public ABI bit positions. -/
def hipEventDefault : Nat := 0

/-- Event creation flag: blocking synchronization. -/
def hipEventBlockingSync : Nat := 1

/-- Event creation flag: timestamps disabled. -/
def hipEventDisableTiming : Nat := 2

/-- Event creation flag: release-to-device memory scope. -/
def hipEventReleaseToDevice : Nat := 1 <<< 30

/-- Event creation flag: release-to-system memory scope. -/
def hipEventReleaseToSystem : Nat := 1 <<< 31

/-- State of one completion handle (the external amd::Event collaborator,
modelled from the spec since its class is not in this repository source).
`status` is true when the handle is CL_COMPLETE; `nudged` is the status
observable right after a notifyCmdQueue progress nudge; `notifyOk` is the
boolean result of notifyCmdQueue; `profStart` and `profEnd` are the nanosecond
profiling timestamps; `queueId` identifies the queue owning the handle's
command. -/
structure AmdEvent where
  status : Bool
  nudged : Bool
  notifyOk : Bool
  profStart : Int
  profEnd : Int
  queueId : Nat
  deriving DecidableEq, Repr

/-- A handle store: the state of every completion handle, indexed by handle id
(the C++ pointer value). -/
abbrev HandleStore := Nat → AmdEvent

/-- The hip::Event object state: object identity (pointer value), creation
flags, the nullable bound completion handle, and the explicitly-recorded
marker. -/
structure Event where
  id : Nat
  flags : Nat
  event_ : Option Nat
  recorded_ : Bool
  deriving DecidableEq, Repr

/-- Event::ready from hip_event.cpp: if the handle status is not CL_COMPLETE,
nudge the command queue (after which the observable status is `nudged`), and
report whether the status is now CL_COMPLETE. -/
def ready (hs : HandleStore) (h : Nat) : Bool :=
  if (hs h).status then true else (hs h).nudged

/-- Result of Event::query or Event::synchronize: the error code together
with the handle the call blocked on via awaitCompletion (`none` when it
returned without waiting).  A wait on an already-complete handle returns
immediately. -/
structure OpResult where
  err : hipError_t
  waitedOn : Option Nat
  deriving DecidableEq, Repr

/-- Event::query from hip_event.cpp: success when the event was never recorded
(null handle), otherwise success exactly when `ready`; the only queue
interaction is the non-blocking notifyCmdQueue nudge inside `ready`, so the
waited-on component is none on every path. -/
def Event.query (hs : HandleStore) (e : Event) : OpResult :=
  match e.event_ with
  | none => ⟨hipSuccess, none⟩
  | some h => ⟨if ready hs h then hipSuccess else hipErrorNotReady, none⟩

/-- Event::synchronize from hip_event.cpp: success immediately when the handle
is null, otherwise awaitCompletion on the handle and success. -/
def Event.synchronize (e : Event) : OpResult :=
  match e.event_ with
  | none => ⟨hipSuccess, none⟩
  | some h => ⟨hipSuccess, some h⟩

/-- In the model a blocking wait returns immediately exactly when it waited on
nothing or on a handle that is already complete. -/
def OpResult.immediate (hs : HandleStore) (r : OpResult) : Bool :=
  match r.waitedOn with
  | none => true
  | some h => (hs h).status

/-- Observable side effect of Event::elapsedTime: the identical-handle branch
enqueues a fresh marker command on `queueId`, blocks until the marker
completes, reads its end timestamp and releases it. -/
inductive ETimeEffect where
  | markerMeasure (queueId : Nat) : ETimeEffect
  deriving DecidableEq, Repr

/-- Result of Event::elapsedTime: error code, the milliseconds written through
the output parameter (`none` when the code returns before assigning it), and
the observable side effects. -/
structure ETimeResult where
  err : hipError_t
  ms : Option Rat
  effects : List ETimeEffect
  deriving DecidableEq, Repr

/-- Event::elapsedTime from hip_event.cpp, translated branch by branch.
`markerEnd` is the end timestamp the environment gives to the fresh marker
synthesized in the identical-handle branch (the marker is enqueued on the
shared handle's owning queue and awaited, so its timestamp is an input of the
environment, not of the two events). -/
def Event.elapsedTime (hs : HandleStore) (markerEnd : Int) (eStart eStop : Event) :
    ETimeResult :=
  if eStart.id = eStop.id then
    match eStart.event_ with
    | none => ⟨hipErrorInvalidHandle, none, []⟩
    | some h =>
      if eStart.flags &&& hipEventDisableTiming ≠ 0 then
        ⟨hipErrorInvalidHandle, none, []⟩
      else if ready hs h = false then
        ⟨hipErrorNotReady, none, []⟩
      else
        ⟨hipSuccess, some 0, []⟩
  else
    match eStart.event_, eStop.event_ with
    | some h1, some h2 =>
      if (eStart.flags ||| eStop.flags) &&& hipEventDisableTiming ≠ 0 then
        ⟨hipErrorInvalidHandle, none, []⟩
      else if ready hs h1 = false ∨ ready hs h2 = false then
        ⟨hipErrorNotReady, none, []⟩
      else if h1 ≠ h2 ∧ eStart.recorded_ ∧ eStop.recorded_ then
        ⟨hipSuccess, some ((((hs h2).profEnd - (hs h1).profEnd : Int) : Rat) / 1000000), []⟩
      else if h1 = h2 ∧ (eStart.recorded_ ∨ eStop.recorded_) then
        ⟨hipSuccess, some (((markerEnd - (hs h1).profEnd : Int) : Rat) / 1000000),
          [ETimeEffect.markerMeasure (hs h1).queueId]⟩
      else
        ⟨hipSuccess, some ((((hs h2).profEnd - (hs h1).profStart : Int) : Rat) / 1000000), []⟩
    | _, _ => ⟨hipErrorInvalidHandle, none, []⟩

/-- Result of Event::streamWait: error code, the markers enqueued (target
queue paired with the wait-list of handle ids each marker carries), and the
handles the call blocked on (always none: streamWait never waits). -/
structure StreamWaitResult where
  err : hipError_t
  markers : List (Nat × List Nat)
  waitedOn : Option Nat
  deriving DecidableEq, Repr

/-- Event::streamWait from hip_event.cpp: success with no action when the
handle is null or already owned by the target queue; resource-exhaustion error
when notifyCmdQueue fails; otherwise enqueue on the target queue a marker
carrying a wait-list of exactly this event's handle.  In C++ the `new`
expression never yields a null pointer (it throws on exhaustion), so the
command-null check in the source is dead and allocation is modelled as
succeeding. -/
def Event.streamWait (hs : HandleStore) (e : Event) (hostQueue : Nat) :
    StreamWaitResult :=
  match e.event_ with
  | none => ⟨hipSuccess, [], none⟩
  | some h =>
    if (hs h).queueId = hostQueue then
      ⟨hipSuccess, [], none⟩
    else if (hs h).notifyOk = false then
      ⟨hipErrorLaunchOutOfResources, [], none⟩
    else
      ⟨hipSuccess, [(hostQueue, [h])], none⟩

/-- Reference counting on completion handles (modelled from the spec: the
amd::Event retain/release machinery lives in the ROCclr runtime, outside this
repository; the spec makes handles reference counted, with the queue lookup
returning a retained command — hip_event.cpp itself releases that lookup
result when it discards it).  `retain` adds one reference to a handle. -/
def retain (rc : Nat → Nat) (h : Nat) : Nat → Nat :=
  fun x => if x = h then rc x + 1 else rc x

/-- Dropping one reference from a handle (amd::Event release). -/
def release (rc : Nat → Nat) (h : Nat) : Nat → Nat :=
  fun x => if x = h then rc x - 1 else rc x

/-- State of the queue collaborator as Event::addMarker observes it (modelled
from the spec: amd::HostQueue is external to this repository source): whether
the queue was created with profiling enabled and its most recently enqueued
command, given as a pair of the command's handle id and its command type
(type 0 is the user-invisible sync-only command).  In the runtime a command
and its completion event are the same reference-counted object, so one id
names both. -/
structure QueueState where
  profilingEnabled : Bool
  lastCmd : Option (Nat × Nat)
  deriving DecidableEq, Repr

/-- The command-resolution phase of Event::addMarker (hip_event.cpp lines
143-160): with profiling enabled and no supplied command, look up the queue's
last enqueued command — getLastQueuedCommand(true) retains it — and reuse it
when it is user visible, otherwise release it and enqueue a fresh marker;
with profiling disabled and no supplied command, enqueue a fresh non-timed
marker.  A fresh command is created holding one reference.  Returns the
resolved command id and the updated reference counts. -/
def resolveCommand (q : QueueState) (supplied : Option Nat) (freshId : Nat)
    (rc : Nat → Nat) : Nat × (Nat → Nat) :=
  if q.profilingEnabled then
    match supplied with
    | some c => (c, rc)
    | none =>
      match q.lastCmd with
      | none => (freshId, retain rc freshId)
      | some (c, ty) =>
        let rc1 := retain rc c
        if ty = 0 then (freshId, retain (release rc1 c) freshId)
        else (c, rc1)
  else
    match supplied with
    | some c => (c, rc)
    | none => (freshId, retain rc freshId)

/-- Event::addMarker from hip_event.cpp: resolve the command, then — line
162 — return unchanged when the resolved command's event is already the bound
handle; otherwise release the previous handle if any, bind the new one and
set `recorded_` to the caller-specified value.  Returns the updated event and
reference counts. -/
def Event.addMarker (q : QueueState) (supplied : Option Nat) (record : Bool)
    (freshId : Nat) (e : Event) (rc : Nat → Nat) : Event × (Nat → Nat) :=
  let r := resolveCommand q supplied freshId rc
  if e.event_ = some r.1 then (e, r.2)
  else
    let rc2 :=
      match e.event_ with
      | some old => release r.2 old
      | none => r.2
    ({ e with event_ := some r.1, recorded_ := record }, rc2)

/-- The set of creation flags ihipEventCreateWithFlags recognizes
(hip_event.cpp lines 179-180). -/
def supportedFlags : Nat :=
  hipEventDefault ||| hipEventBlockingSync ||| hipEventDisableTiming |||
    hipEventReleaseToDevice ||| hipEventReleaseToSystem

/-- The two mutually exclusive release flags (hip_event.cpp line 181). -/
def releaseFlags : Nat := hipEventReleaseToDevice ||| hipEventReleaseToSystem

/-- C bitwise complement on a 32-bit unsigned value. -/
def complement32 (n : Nat) : Nat := 2 ^ 32 - 1 - n % 2 ^ 32

/-- ihipEventCreateWithFlags from hip_event.cpp.  `slotNonNull` models
whether the output pointer is non-null; `freshId` is the identity of the
newly allocated object.  The Event constructor is in the class header, not in
this repository source; modelled from the spec: a new Event starts with a
null handle and `recorded_ = false`.  In C++ `new` throws rather than
returning null, so the out-of-memory branch in the source is dead and
allocation is modelled as succeeding. -/
def ihipEventCreateWithFlags (slotNonNull : Bool) (freshId : Nat) (flags : Nat) :
    hipError_t × Option Event :=
  if slotNonNull = false then
    (hipErrorInvalidValue, none)
  else
    let illegal : Bool :=
      (flags &&& complement32 supportedFlags != 0) ||
        (flags &&& releaseFlags == releaseFlags)
    if illegal then (hipErrorInvalidValue, none)
    else (hipSuccess, some ⟨freshId, flags, none, false⟩)

/-- The illegal-flags condition of the create operation as the spec words it:
some bit of the flags lies outside the recognized set, or both release flags
are present. -/
def specIllegalCreateFlags (flags : Nat) : Prop :=
  (∃ i, flags.testBit i = true ∧ supportedFlags.testBit i = false) ∨
    (flags &&& hipEventReleaseToDevice ≠ 0 ∧ flags &&& hipEventReleaseToSystem ≠ 0)

/-- Lock-acquisition order of Event::elapsedTime on two distinct Event
objects (hip_event.cpp lines 60 and 78): first the lock of `this` (the start
event), then the lock of `eStop`. -/
def elapsedTimeLockSeq (selfLock otherLock : Fin 2) : List (Fin 2) :=
  [selfLock, otherLock]

/-- State of two host threads concurrently inside Event::elapsedTime on two
distinct events A (lock 0) and B (lock 1): which thread owns each lock and
how many locks of its acquisition sequence each thread holds. -/
structure LockState where
  owner : Fin 2 → Option (Fin 2)
  pc : Fin 2 → Nat

/-- The acquisition sequence of each thread: thread 0 runs elapsedTime(A, B)
and thread 1 runs elapsedTime(B, A), so they take the two locks in opposite
orders. -/
def seqOf (t : Fin 2) : List (Fin 2) :=
  if t = 0 then elapsedTimeLockSeq 0 1 else elapsedTimeLockSeq 1 0

/-- One interleaving step: a thread acquires the next lock of its sequence
when that lock is free. -/
inductive LockStep : LockState → LockState → Prop where
  | acquire (t : Fin 2) (l : Fin 2) (s : LockState)
      (hnext : (seqOf t).get? (s.pc t) = some l)
      (hfree : s.owner l = none) :
      LockStep s ⟨Function.update s.owner l (some t),
        Function.update s.pc t (s.pc t + 1)⟩

/-- Both locks free, neither thread holds anything. -/
def initialLockState : LockState := ⟨fun _ => none, fun _ => 0⟩

/-- A state is deadlocked when no step is possible yet some thread still has
locks left to acquire. -/
def Deadlocked (s : LockState) : Prop :=
  (∀ u : LockState, ¬ LockStep s u) ∧ ∃ t : Fin 2, s.pc t < (seqOf t).length

/-- The state reached when thread 0 has taken A's lock and thread 1 has taken
B's lock: each now needs the lock the other holds. -/
def crossedLockState : LockState :=
  ⟨fun l => if l = 0 then some 0 else some 1, fun _ => 1⟩

/-- The intermediate state in which thread 0 holds A's lock and thread 1
holds nothing yet. -/
def midLockState : LockState :=
  ⟨Function.update (fun _ => none) 0 (some 0), Function.update (fun _ => 0) 0 1⟩

section BitHelpers

/-- A conjunction of bit masks vanishes exactly when no bit is shared. -/
theorem land_eq_zero_iff (a b : Nat) :
    a &&& b = 0 ↔ ∀ i, a.testBit i = true → b.testBit i = false := by
  constructor
  · intro h i hi
    have hb := congrArg (fun n => n.testBit i) h
    simp only [Nat.testBit_land, Nat.zero_testBit] at hb
    rw [hi] at hb
    simpa using hb
  · intro h
    apply Nat.zero_of_testBit_eq_false
    intro i
    rw [Nat.testBit_land]
    cases hai : a.testBit i with
    | false => simp
    | true => simp [h i hai]

/-- Distributing a mask test over a bitwise or. -/
theorem lor_land_eq_zero (a b c : Nat) :
    (a ||| b) &&& c = 0 ↔ a &&& c = 0 ∧ b &&& c = 0 := by
  simp only [land_eq_zero_iff, Nat.testBit_lor]
  constructor
  · intro h
    refine ⟨fun i hi => h i (by simp [hi]), fun i hi => h i (by simp [hi])⟩
  · rintro ⟨h1, h2⟩ i hi
    cases ha : a.testBit i with
    | true => exact h1 i ha
    | false =>
      cases hb : b.testBit i with
      | true => exact h2 i hb
      | false => simp [ha, hb] at hi

end BitHelpers

/-- C4: elapsedTime with start and stop the same Event object returns
InvalidHandle when the handle is null or the flags contain DisableTiming,
NotReady when the event is not yet complete, and otherwise succeeds with the
value 0. -/
theorem elapsedTime_self_spec (hs : HandleStore) (m : Int) (e : Event) :
    (e.event_ = none →
      Event.elapsedTime hs m e e = ⟨hipErrorInvalidHandle, none, []⟩) ∧
    (∀ h, e.event_ = some h → e.flags &&& hipEventDisableTiming ≠ 0 →
      Event.elapsedTime hs m e e = ⟨hipErrorInvalidHandle, none, []⟩) ∧
    (∀ h, e.event_ = some h → e.flags &&& hipEventDisableTiming = 0 →
      ready hs h = false →
      Event.elapsedTime hs m e e = ⟨hipErrorNotReady, none, []⟩) ∧
    (∀ h, e.event_ = some h → e.flags &&& hipEventDisableTiming = 0 →
      ready hs h = true →
      Event.elapsedTime hs m e e = ⟨hipSuccess, some 0, []⟩) := by
  refine ⟨?_, ?_, ?_, ?_⟩
  · intro h0
    simp [Event.elapsedTime, h0]
  · intro h hh hf
    simp [Event.elapsedTime, hh, hf]
  · intro h hh hf hr
    simp [Event.elapsedTime, hh, hf, hr]
  · intro h hh hf hr
    simp [Event.elapsedTime, hh, hf, hr]

/-- Witness for C4: on a ready timing-enabled event, self-comparison gives 0. -/
theorem elapsedTime_self_spec_witness :
    Event.elapsedTime (fun _ => ⟨true, true, true, 0, 0, 0⟩) 0
      ⟨0, 0, some 3, true⟩ ⟨0, 0, some 3, true⟩ = ⟨hipSuccess, some 0, []⟩ :=
  (elapsedTime_self_spec (fun _ => ⟨true, true, true, 0, 0, 0⟩) 0
    ⟨0, 0, some 3, true⟩).2.2.2 3 rfl (by decide) rfl

/-- C6: an Event whose handle is null gets success from both query and
synchronize, for every handle store; query never blocks on any event; a
synchronize whose handle is already complete returns immediately. -/
theorem query_synchronize_unrecorded (hs : HandleStore) (e : Event) :
    (e.event_ = none →
      Event.query hs e = ⟨hipSuccess, none⟩ ∧
      Event.synchronize e = ⟨hipSuccess, none⟩) ∧
    (Event.query hs e).waitedOn = none ∧
    (∀ h, e.event_ = some h → (hs h).status = true →
      (Event.synchronize e).err = hipSuccess ∧
      (Event.synchronize e).immediate hs = true) := by
  refine ⟨?_, ?_, ?_⟩
  · intro h0
    simp [Event.query, Event.synchronize, h0]
  · cases h0 : e.event_ <;> simp [Event.query, h0]
  · intro h hh hst
    simp [Event.synchronize, hh, OpResult.immediate, hst]

/-- Witness for C6: a never-recorded event under an arbitrary store. -/
theorem query_synchronize_unrecorded_witness :
    Event.query (fun _ => ⟨false, false, false, 0, 0, 0⟩) ⟨0, 0, none, false⟩ =
      ⟨hipSuccess, none⟩ ∧
    Event.synchronize ⟨0, 0, none, false⟩ = ⟨hipSuccess, none⟩ :=
  (query_synchronize_unrecorded (fun _ => ⟨false, false, false, 0, 0, 0⟩)
    ⟨0, 0, none, false⟩).1 rfl

/-- C7: streamWait succeeds with no marker when the handle is null or already
owned by the target queue; fails with the resource-exhaustion error when the
owning queue cannot be nudged; otherwise enqueues on the target queue one
marker whose wait-list is exactly this event's handle and succeeds — and on
no path does it block the calling thread. -/
theorem streamWait_spec (hs : HandleStore) (e : Event) (q : Nat) :
    (e.event_ = none → Event.streamWait hs e q = ⟨hipSuccess, [], none⟩) ∧
    (∀ h, e.event_ = some h → (hs h).queueId = q →
      Event.streamWait hs e q = ⟨hipSuccess, [], none⟩) ∧
    (∀ h, e.event_ = some h → (hs h).queueId ≠ q → (hs h).notifyOk = false →
      Event.streamWait hs e q = ⟨hipErrorLaunchOutOfResources, [], none⟩) ∧
    (∀ h, e.event_ = some h → (hs h).queueId ≠ q → (hs h).notifyOk = true →
      Event.streamWait hs e q = ⟨hipSuccess, [(q, [h])], none⟩) := by
  refine ⟨?_, ?_, ?_, ?_⟩
  · intro h0
    simp [Event.streamWait, h0]
  · intro h hh hq
    simp [Event.streamWait, hh, hq]
  · intro h hh hq hn
    simp [Event.streamWait, hh, hq, hn]
  · intro h hh hq hn
    simp [Event.streamWait, hh, hq, hn]

/-- Witness for C7: a handle on queue 1 makes queue 2 wait on it. -/
theorem streamWait_spec_witness :
    Event.streamWait (fun _ => ⟨false, false, true, 0, 0, 1⟩)
      ⟨0, 0, some 6, true⟩ 2 = ⟨hipSuccess, [(2, [6])], none⟩ :=
  (streamWait_spec (fun _ => ⟨false, false, true, 0, 0, 1⟩)
    ⟨0, 0, some 6, true⟩ 2).2.2.2 6 rfl (by decide) rfl

/-- C1: on two distinct Events whose validation passes, with distinct bound
handles and both explicitly recorded, elapsedTime succeeds and yields the two
end timestamps' difference divided by one million, with no side effect. -/
theorem elapsedTime_distinct_recorded (hs : HandleStore) (m : Int)
    (a b : Event) (h1 h2 : Nat)
    (hid : a.id ≠ b.id) (ha : a.event_ = some h1) (hb : b.event_ = some h2)
    (hfa : a.flags &&& hipEventDisableTiming = 0)
    (hfb : b.flags &&& hipEventDisableTiming = 0)
    (hra : ready hs h1 = true) (hrb : ready hs h2 = true)
    (hhe : h1 ≠ h2) (hrca : a.recorded_ = true) (hrcb : b.recorded_ = true) :
    Event.elapsedTime hs m a b =
      ⟨hipSuccess,
        some ((((hs h2).profEnd - (hs h1).profEnd : Int) : Rat) / 1000000), []⟩ := by
  have hor : (a.flags ||| b.flags) &&& hipEventDisableTiming = 0 :=
    (lor_land_eq_zero _ _ _).mpr ⟨hfa, hfb⟩
  simp [Event.elapsedTime, hid, ha, hb, hor, hra, hrb, hhe, hrca, hrcb]

/-- Witness for C1: handle 1 ends at 1000000 ns, handle 2 at 3000000 ns. -/
theorem elapsedTime_distinct_recorded_witness :
    Event.elapsedTime
      (fun h => if h = 1 then ⟨true, true, true, 0, 1000000, 0⟩
        else ⟨true, true, true, 0, 3000000, 0⟩) 0
      ⟨0, 0, some 1, true⟩ ⟨1, 0, some 2, true⟩ =
      ⟨hipSuccess, some (((3000000 - 1000000 : Int) : Rat) / 1000000), []⟩ :=
  elapsedTime_distinct_recorded
    (fun h => if h = 1 then ⟨true, true, true, 0, 1000000, 0⟩
      else ⟨true, true, true, 0, 3000000, 0⟩) 0
    ⟨0, 0, some 1, true⟩ ⟨1, 0, some 2, true⟩ 1 2
    (by decide) rfl rfl (by decide) (by decide) rfl rfl (by decide) rfl rfl

/-- C2: on two distinct Events whose validation passes, sharing one bound
handle with at least one of them explicitly recorded, elapsedTime enqueues a
fresh marker on the shared handle's owning queue, blocks until it completes,
and succeeds with the marker's end timestamp minus the start handle's end
timestamp divided by one million. -/
theorem elapsedTime_shared_recorded (hs : HandleStore) (m : Int)
    (a b : Event) (h : Nat)
    (hid : a.id ≠ b.id) (ha : a.event_ = some h) (hb : b.event_ = some h)
    (hfa : a.flags &&& hipEventDisableTiming = 0)
    (hfb : b.flags &&& hipEventDisableTiming = 0)
    (hr : ready hs h = true)
    (hrec : a.recorded_ = true ∨ b.recorded_ = true) :
    Event.elapsedTime hs m a b =
      ⟨hipSuccess, some (((m - (hs h).profEnd : Int) : Rat) / 1000000),
        [ETimeEffect.markerMeasure (hs h).queueId]⟩ := by
  have hor : (a.flags ||| b.flags) &&& hipEventDisableTiming = 0 :=
    (lor_land_eq_zero _ _ _).mpr ⟨hfa, hfb⟩
  rcases hrec with hrec | hrec <;>
    simp [Event.elapsedTime, hid, ha, hb, hor, hr, hrec]

/-- Witness for C2: shared handle 1 on queue 4 ending at 1000000 ns, with the
synthesized marker ending at 3000000 ns. -/
theorem elapsedTime_shared_recorded_witness :
    Event.elapsedTime (fun _ => ⟨true, true, true, 0, 1000000, 4⟩) 3000000
      ⟨0, 0, some 1, true⟩ ⟨1, 0, some 1, false⟩ =
      ⟨hipSuccess, some (((3000000 - 1000000 : Int) : Rat) / 1000000),
        [ETimeEffect.markerMeasure 4]⟩ :=
  elapsedTime_shared_recorded (fun _ => ⟨true, true, true, 0, 1000000, 4⟩)
    3000000 ⟨0, 0, some 1, true⟩ ⟨1, 0, some 1, false⟩ 1
    (by decide) rfl rfl (by decide) (by decide) rfl (Or.inl rfl)

/-- C3: on two distinct Events, elapsedTime returns InvalidHandle whenever a
handle is null or a flag word contains DisableTiming (no readiness
assumption), and NotReady with no value written when those checks pass but a
handle is not complete. -/
theorem elapsedTime_distinct_validation (hs : HandleStore) (m : Int)
    (a b : Event) (hid : a.id ≠ b.id) :
    ((a.event_ = none ∨ b.event_ = none ∨
        a.flags &&& hipEventDisableTiming ≠ 0 ∨
        b.flags &&& hipEventDisableTiming ≠ 0) →
      Event.elapsedTime hs m a b = ⟨hipErrorInvalidHandle, none, []⟩) ∧
    (∀ h1 h2, a.event_ = some h1 → b.event_ = some h2 →
      a.flags &&& hipEventDisableTiming = 0 →
      b.flags &&& hipEventDisableTiming = 0 →
      (ready hs h1 = false ∨ ready hs h2 = false) →
      Event.elapsedTime hs m a b = ⟨hipErrorNotReady, none, []⟩) := by
  constructor
  · intro hbad
    rcases hbad with h0 | h0 | hf | hf
    · simp [Event.elapsedTime, hid, h0]
    · cases ha : a.event_ <;> simp [Event.elapsedTime, hid, ha, h0]
    · cases ha : a.event_ with
      | none => simp [Event.elapsedTime, hid, ha]
      | some h1 =>
        cases hb : b.event_ with
        | none => simp [Event.elapsedTime, hid, ha, hb]
        | some h2 =>
          have : (a.flags ||| b.flags) &&& hipEventDisableTiming ≠ 0 := by
            intro hz
            exact hf ((lor_land_eq_zero _ _ _).mp hz).1
          simp [Event.elapsedTime, hid, ha, hb, this]
    · cases ha : a.event_ with
      | none => simp [Event.elapsedTime, hid, ha]
      | some h1 =>
        cases hb : b.event_ with
        | none => simp [Event.elapsedTime, hid, ha, hb]
        | some h2 =>
          have : (a.flags ||| b.flags) &&& hipEventDisableTiming ≠ 0 := by
            intro hz
            exact hf ((lor_land_eq_zero _ _ _).mp hz).2
          simp [Event.elapsedTime, hid, ha, hb, this]
  · intro h1 h2 ha hb hfa hfb hnr
    have hor : (a.flags ||| b.flags) &&& hipEventDisableTiming = 0 :=
      (lor_land_eq_zero _ _ _).mpr ⟨hfa, hfb⟩
    simp [Event.elapsedTime, hid, ha, hb, hor, hnr]

/-- Witness for C3: a null start handle yields InvalidHandle. -/
theorem elapsedTime_distinct_validation_witness :
    Event.elapsedTime (fun _ => ⟨true, true, true, 0, 0, 0⟩) 0
      ⟨0, 0, none, false⟩ ⟨1, 0, some 1, true⟩ =
      ⟨hipErrorInvalidHandle, none, []⟩ :=
  (elapsedTime_distinct_validation (fun _ => ⟨true, true, true, 0, 0, 0⟩) 0
    ⟨0, 0, none, false⟩ ⟨1, 0, some 1, true⟩ (by decide)).1 (Or.inl rfl)

/-- C9: on two distinct Events whose validation passes, sharing one bound
handle with neither explicitly recorded, elapsedTime synthesizes no marker
and succeeds with the shared handle's end minus start timestamp divided by
one million — the fall-through branch of the source, which the spec's branch
list restricts to differing handles. -/
theorem elapsedTime_shared_unrecorded (hs : HandleStore) (m : Int)
    (a b : Event) (h : Nat)
    (hid : a.id ≠ b.id) (ha : a.event_ = some h) (hb : b.event_ = some h)
    (hfa : a.flags &&& hipEventDisableTiming = 0)
    (hfb : b.flags &&& hipEventDisableTiming = 0)
    (hr : ready hs h = true)
    (hrca : a.recorded_ = false) (hrcb : b.recorded_ = false) :
    Event.elapsedTime hs m a b =
      ⟨hipSuccess,
        some ((((hs h).profEnd - (hs h).profStart : Int) : Rat) / 1000000), []⟩ := by
  have hor : (a.flags ||| b.flags) &&& hipEventDisableTiming = 0 :=
    (lor_land_eq_zero _ _ _).mpr ⟨hfa, hfb⟩
  simp [Event.elapsedTime, hid, ha, hb, hor, hr, hrca, hrcb]

/-- Witness for C9: shared handle 1 running from 500000 ns to 1500000 ns,
with both events only implicitly bound. -/
theorem elapsedTime_shared_unrecorded_witness :
    Event.elapsedTime (fun _ => ⟨true, true, true, 500000, 1500000, 0⟩) 0
      ⟨0, 0, some 1, false⟩ ⟨1, 0, some 1, false⟩ =
      ⟨hipSuccess, some (((1500000 - 500000 : Int) : Rat) / 1000000), []⟩ :=
  elapsedTime_shared_unrecorded (fun _ => ⟨true, true, true, 500000, 1500000, 0⟩)
    0 ⟨0, 0, some 1, false⟩ ⟨1, 0, some 1, false⟩ 1
    (by decide) rfl rfl (by decide) (by decide) rfl rfl rfl

section CreateFlagLemmas

/-- The 32-bit complement of the supported mask, as an xor with the all-ones
word. -/
theorem complement32_supported_eq :
    complement32 supportedFlags = (2 ^ 32 - 1) ^^^ supportedFlags := by decide

/-- Bit i of the complemented supported mask is set exactly on the
unsupported bit positions below 32. -/
theorem testBit_complement32_supported (i : Nat) :
    (complement32 supportedFlags).testBit i =
      (decide (i < 32) && !(supportedFlags.testBit i)) := by
  rw [complement32_supported_eq, Nat.testBit_xor, Nat.testBit_two_pow_sub_one]
  rcases Nat.lt_or_ge i 32 with hi | hi
  · simp [hi]
  · have hs : supportedFlags.testBit i = false :=
      Nat.testBit_eq_false_of_lt
        (lt_of_lt_of_le (by decide : supportedFlags < 2 ^ 32)
          (Nat.pow_le_pow_right (by norm_num) hi))
    simp [hs, Nat.not_lt.mpr hi]

/-- For a 32-bit flags word, masking with the complement of the supported set
vanishes exactly when every set bit is a supported bit. -/
theorem land_complement32_supported_eq_zero_iff {flags : Nat}
    (hlt : flags < 2 ^ 32) :
    flags &&& complement32 supportedFlags = 0 ↔
      ∀ i, flags.testBit i = true → supportedFlags.testBit i = true := by
  rw [land_eq_zero_iff]
  constructor
  · intro h i hi
    have hc := h i hi
    rw [testBit_complement32_supported] at hc
    have hi32 : i < 32 := by
      by_contra hge
      have hF : flags.testBit i = false :=
        Nat.testBit_eq_false_of_lt
          (lt_of_lt_of_le hlt
            (Nat.pow_le_pow_right (by norm_num) (Nat.le_of_not_lt hge)))
      rw [hF] at hi
      exact Bool.noConfusion hi
    simpa [hi32] using hc
  · intro h i hi
    rw [testBit_complement32_supported]
    simp [h i hi]

/-- A power-of-two mask test reads one bit. -/
theorem land_two_pow_ne_zero_iff (flags k : Nat) :
    flags &&& 2 ^ k ≠ 0 ↔ flags.testBit k = true := by
  rw [Nat.and_two_pow]
  cases h : flags.testBit k <;> simp [h]

/-- The release-to-device flag is bit 30. -/
theorem hipEventReleaseToDevice_eq : hipEventReleaseToDevice = 2 ^ 30 := by decide

/-- The release-to-system flag is bit 31. -/
theorem hipEventReleaseToSystem_eq : hipEventReleaseToSystem = 2 ^ 31 := by decide

/-- The release-flag pair as an or of the two powers of two. -/
theorem releaseFlags_eq : releaseFlags = 2 ^ 30 ||| 2 ^ 31 := by decide

/-- Bit i of the release-flag pair is set exactly at positions 30 and 31. -/
theorem testBit_releaseFlags (i : Nat) :
    releaseFlags.testBit i = (decide (30 = i) || decide (31 = i)) := by
  rw [releaseFlags_eq, Nat.testBit_lor, Nat.testBit_two_pow, Nat.testBit_two_pow]

/-- The code's both-release-flags test coincides with the spec's "contains
both release flags". -/
theorem land_releaseFlags_eq_iff (flags : Nat) :
    flags &&& releaseFlags = releaseFlags ↔
      flags &&& hipEventReleaseToDevice ≠ 0 ∧
        flags &&& hipEventReleaseToSystem ≠ 0 := by
  rw [hipEventReleaseToDevice_eq, hipEventReleaseToSystem_eq,
    land_two_pow_ne_zero_iff, land_two_pow_ne_zero_iff]
  constructor
  · intro h
    have h30 := congrArg (fun n => n.testBit 30) h
    have h31 := congrArg (fun n => n.testBit 31) h
    simp only [Nat.testBit_land, testBit_releaseFlags] at h30 h31
    simp at h30 h31
    exact ⟨h30, h31⟩
  · rintro ⟨h30, h31⟩
    apply Nat.eq_of_testBit_eq
    intro i
    rw [Nat.testBit_land, testBit_releaseFlags]
    by_cases e30 : 30 = i
    · subst e30
      simp [h30]
    · by_cases e31 : 31 = i
      · subst e31
        simp [h31]
      · simp [e30, e31]

end CreateFlagLemmas

/-- C5: creation with a null output slot fails with InvalidValue; with a
non-null slot it fails with InvalidValue exactly when some flag bit lies
outside the recognized set or both release flags are present; otherwise it
succeeds returning a new Event with a null handle. -/
theorem create_spec (freshId flags : Nat) (hlt : flags < 2 ^ 32) :
    (ihipEventCreateWithFlags false freshId flags).1 = hipErrorInvalidValue ∧
    ((ihipEventCreateWithFlags true freshId flags).1 = hipErrorInvalidValue ↔
      specIllegalCreateFlags flags) ∧
    (¬ specIllegalCreateFlags flags →
      ihipEventCreateWithFlags true freshId flags =
        (hipSuccess, some ⟨freshId, flags, none, false⟩)) := by
  have hbit : flags &&& complement32 supportedFlags ≠ 0 ↔
      ∃ i, flags.testBit i = true ∧ supportedFlags.testBit i = false := by
    rw [Ne, land_complement32_supported_eq_zero_iff hlt]
    push_neg
    constructor
    · rintro ⟨i, hi, hns⟩
      exact ⟨i, hi, by simpa using hns⟩
    · rintro ⟨i, hi, hns⟩
      exact ⟨i, hi, by simp [hns]⟩
  have hcond : ((flags &&& complement32 supportedFlags != 0) ||
      (flags &&& releaseFlags == releaseFlags)) = true ↔
      specIllegalCreateFlags flags := by
    rw [specIllegalCreateFlags, ← hbit, ← land_releaseFlags_eq_iff]
    simp [Bool.or_eq_true, bne_iff_ne, beq_iff_eq]
  refine ⟨rfl, ?_, ?_⟩
  · rw [← hcond]
    cases hc : ((flags &&& complement32 supportedFlags != 0) ||
        (flags &&& releaseFlags == releaseFlags)) <;>
      simp [ihipEventCreateWithFlags, hc]
  · intro hgood
    have hc : ((flags &&& complement32 supportedFlags != 0) ||
        (flags &&& releaseFlags == releaseFlags)) = false := by
      rw [← hcond] at hgood
      simpa using hgood
    simp [ihipEventCreateWithFlags, hc]

/-- Witness for C5: flag value 4 lies outside the recognized set, so creation
rejects it with InvalidValue. -/
theorem create_spec_witness :
    (ihipEventCreateWithFlags true 0 4).1 = hipErrorInvalidValue :=
  (create_spec 0 4 (by decide)).2.1.mpr (Or.inl ⟨2, by decide, by decide⟩)

/-- C8 evaluated at the failing input: an Event bound to handle 5 with two
live references is re-recorded on a profiling-enabled queue whose last queued
command is the same user-visible command 5.  The early return at line 162 of
hip_event.cpp leaves the bound handle and recorded flag unchanged, but the
reference the lookup added is never released: the handle's reference count
grows from 2 to 3, against the claim that it is unchanged. -/
theorem addMarker_rerecord_leak :
    (Event.addMarker ⟨true, some (5, 1)⟩ none true 7
        ⟨0, 0, some 5, true⟩ (fun _ => 2)).1 = ⟨0, 0, some 5, true⟩ ∧
    (Event.addMarker ⟨true, some (5, 1)⟩ none true 7
        ⟨0, 0, some 5, true⟩ (fun _ => 2)).2 5 = 3 :=
  ⟨rfl, rfl⟩

/-- C10: from the initial state, the interleaving in which thread 0 (running
elapsedTime(A, B), locks in order A then B) takes A's lock and thread 1
(running elapsedTime(B, A), locks in order B then A) takes B's lock is
reachable, and the crossed state is deadlocked — each thread needs the lock
the other holds — against the claim that the two concurrent calls must not
deadlock. -/
theorem elapsedTime_crossed_deadlock :
    Relation.ReflTransGen LockStep initialLockState crossedLockState ∧
    Deadlocked crossedLockState := by
  constructor
  · have h1 : LockStep initialLockState midLockState :=
      LockStep.acquire 0 0 initialLockState (by decide) rfl
    have h2 : LockStep midLockState crossedLockState := by
      have hstep := LockStep.acquire 1 1 midLockState (by decide) (by decide)
      have hEq : (⟨Function.update midLockState.owner 1 (some 1),
          Function.update midLockState.pc 1 (midLockState.pc 1 + 1)⟩ : LockState) =
          crossedLockState := by
        simp only [midLockState, crossedLockState, LockState.mk.injEq]
        constructor <;> funext x <;> fin_cases x <;> rfl
      rw [hEq] at hstep
      exact hstep
    exact Relation.ReflTransGen.head h1 (Relation.ReflTransGen.single h2)
  · constructor
    · intro u hstep
      cases hstep with
      | acquire t l s hnext hfree =>
        fin_cases l <;> simp [crossedLockState] at hfree
    · exact ⟨0, by decide⟩

end hip
